import Mathlib

/-!
# Verification of the GCN bot's notice parsing and event consolidation engine

A shallow embedding, in Lean 4, of the core data model and operations of the
GCN bot: the notice handler (`gcn_notice_handler.py`), the circular handler
(`gcn_circular_handler.py`) and the connection watchdog (`gcn_bot.py`),
together with theorems settling the specification claims about identity
resolution, canonical naming, priority merge, retraction, persistence and
reconnection backoff.

Machine reals (`float`) of the source are modelled as `ℚ`; Python strings as
`String`; Python dicts as association lists with insertion-order semantics;
rows of the CSV/ASCII files as records listing the fields the claims depend
on.  File I/O is modelled as explicit state passing: each handler operation
is a pure function from the persisted table(s) to the updated table(s).
-/

namespace GcnBot

/-- Whether `pat` occurs at the start of `s` (on character lists). -/
def startsWithSeg : List Char → List Char → Bool
  | _, [] => true
  | [], _ :: _ => false
  | c :: cs, p :: ps => (c = p) && startsWithSeg cs ps

/-- Whether `pat` occurs contiguously anywhere in `s` (on character lists). -/
def containsSeg : List Char → List Char → Bool
  | [], pat => pat.isEmpty
  | c :: cs, pat => startsWithSeg (c :: cs) pat || containsSeg cs pat

/-- Python's substring test `pat in s`. -/
def strContains (s pat : String) : Bool := containsSeg s.toList pat.toList

/-- Python's `s.split(sep)` for a single-character separator, on char lists. -/
def splitChar (sep : Char) : List Char → List (List Char)
  | [] => [[]]
  | c :: cs =>
    let r := splitChar sep cs
    if c = sep then [] :: r
    else match r with
      | [] => [[c]]
      | h :: hs => (c :: h) :: hs

/-- The comma-separated components of a string, e.g. of an `All_Facilities`
cell; this is the "set of observed facilities" reading of that cell. -/
def commaSplit (s : String) : List String :=
  (splitChar ',' s.toList).map (fun l => String.mk l)

/-- `pat` occurs at the end of `s ++ pat`: auxiliary fact about `startsWithSeg`. -/
theorem startsWithSeg_refl (p : List Char) : startsWithSeg p p = true := by
  induction p with
  | nil => rfl
  | cons c cs ih => simp [startsWithSeg, ih]

theorem containsSeg_append_self (s p : List Char) :
    containsSeg (s ++ p) p = true := by
  induction s with
  | nil =>
    cases p with
    | nil => rfl
    | cons c cs => simp [containsSeg, startsWithSeg_refl]
  | cons c cs ih => simp [containsSeg, ih]

/-- `strContains (s ++ pat) pat` always holds. -/
theorem strContains_append_self (s pat : String) :
    strContains (s ++ pat) pat = true := by
  unfold strContains
  have h : (s ++ pat).toList = s.toList ++ pat.toList := by
    simp [String.toList]
  rw [h]
  exact containsSeg_append_self _ _

namespace NoticeHandler

/-- One row of the notice CSV ledger (`gcn_notices.csv`), restricted to the
columns that identity resolution reads: `Name`, `Facility`, `Trigger_num`
(`GCNNoticeHandler.csv_columns`).  The remaining columns (coordinates,
times) never influence `_event_exists` or `_generate_grb_name`. -/
structure NoticeRow where
  name : String
  facility : String
  trigger : String
deriving DecidableEq, Repr

/-- `GCNNoticeHandler._normalize_facility_name`: group instruments of one
mission under a family name, via Python substring tests. -/
def normalize_facility_name (facility : String) : String :=
  if facility = "" then ""
  else if strContains facility "Swift" then "Swift"
  else if strContains facility "Fermi" then "Fermi"
  else if strContains facility "IceCube" || strContains facility "AMON" then "IceCube"
  else if strContains facility "Einstein" then "EinsteinProbe"
  else facility

/-- A CSV row participates in the name cache when its `Facility`,
`Trigger_num` and `Name` cells are all present (`pd.notna` in
`_load_caches`; an absent cell reads back as NaN). -/
def validRow (r : NoticeRow) : Bool :=
  !(r.facility = "") && !(r.trigger = "") && !(r.name = "")

/-- Python-dict update: replace the value at an existing key in place,
append a new key at the end (insertion-order semantics). -/
def upsertKey : List ((String × String) × String) → String × String → String →
    List ((String × String) × String)
  | [], k, v => [(k, v)]
  | e :: es, k, v => if e.1 = k then (k, v) :: es else e :: upsertKey es k v

/-- `_load_caches`: rebuild the `(facility, trigger_num) -> name` cache by
folding the CSV ledger rows in order into a dict. -/
def load_name_cache (rows : List NoticeRow) : List ((String × String) × String) :=
  rows.foldl
    (fun c r => if validRow r then upsertKey c (r.facility, r.trigger) r.name else c) []

/-- The scan in `_event_exists`: iterate the cache in insertion order and
return the name of the first entry whose normalized facility and trigger
number match. -/
def cacheLookup (cache : List ((String × String) × String))
    (facility trigger : String) : Option String :=
  cache.findSome? (fun e =>
    if normalize_facility_name e.1.1 = normalize_facility_name facility ∧ e.1.2 = trigger
    then some e.2 else none)

/-- `GCNNoticeHandler._event_exists`: after a forced cache reload from the
CSV ledger, look the identity up.  The in-process `_name_cache` is cleared
and rebuilt from the file on every call (`_load_caches(force=True)`), so
the lookup depends only on the persisted rows; the direct CSV re-scan
fallback in the source applies the same predicate to the same rows and so
never changes the result. -/
def event_exists (rows : List NoticeRow) (facility trigger : String) : Option String :=
  if facility = "" ∨ trigger = "" then none
  else cacheLookup (load_name_cache rows) facility trigger

/-- Uppercase alphabet (`string.ascii_uppercase`). -/
def uppercaseLetters : List Char := "ABCDEFGHIJKLMNOPQRSTUVWXYZ".toList

/-- Lowercase alphabet (`string.ascii_lowercase`). -/
def lowercaseLetters : List Char := "abcdefghijklmnopqrstuvwxyz".toList

/-- The name tag chosen in `_generate_grb_name`: IceCube/AMON facilities
take "IceCube" (checked first), Einstein Probe takes "EP", everything else
"GRB". -/
def nameTag (facility : String) : String :=
  if strContains facility "IceCube" || strContains facility "AMON" then "IceCube"
  else if facility = "EinsteinProbe" then "EP"
  else "GRB"

/-- Whether the name template joins tag and date with a dash
(IceCube-YYMMDDL) rather than a space (GRB YYMMDDL, EP YYMMDDL). -/
def nameTagDash (facility : String) : Bool :=
  strContains facility "IceCube" || strContains facility "AMON"

/-- The per-tag alphabet: lowercase for Einstein Probe, uppercase otherwise. -/
def nameAlphabet (facility : String) : List Char :=
  if strContains facility "IceCube" || strContains facility "AMON" then uppercaseLetters
  else if facility = "EinsteinProbe" then lowercaseLetters
  else uppercaseLetters

/-- Assemble the canonical name from tag, template, YYMMDD date key and
sequence letter. -/
def formatGrbName (tag : String) (dash : Bool) (dateKey : String) (c : Char) : String :=
  if dash then tag ++ "-" ++ dateKey ++ c.toString
  else tag ++ " " ++ dateKey ++ c.toString

/-- Lookup in the `PREFIX_YYMMDD -> letter` sequence dict (`_grb_name_cache`). -/
def lookupSeq (cache : List (String × Char)) (k : String) : Option Char :=
  cache.findSome? (fun e => if e.1 = k then some e.2 else none)

/-- Python-dict update on the sequence dict. -/
def upsertSeq : List (String × Char) → String → Char → List (String × Char)
  | [], k, v => [(k, v)]
  | e :: es, k, v => if e.1 = k then (k, v) :: es else e :: upsertSeq es k v

/-- In-memory state of `GCNNoticeHandler` that survives between notices:
the persisted CSV ledger and the name sequence dict.  The
`(facility, trigger) -> name` cache is not part of the state because
`_event_exists` force-clears and rebuilds it from the ledger on every
call. -/
structure HandlerState where
  csvRows : List NoticeRow
  grbNameCache : List (String × Char)
deriving DecidableEq, Repr

/-- `GCNNoticeHandler._generate_grb_name` (cache path).  Returns the
existing name when the identity is already in the ledger; otherwise
allocates the next letter for the `(tag, date)` sequence key: the
alphabet's first letter for an unseen key, else the successor of the
cached letter capped at the alphabet's last letter.  Returns `none` only
on the source's `ValueError` path (a cached letter outside the tag's
alphabet), where the source falls back to a file re-scan; no state
reachable through this model produces that letter. -/
def generate_grb_name (st : HandlerState) (dateKey facility trigger : String) :
    Option (String × HandlerState) :=
  match event_exists st.csvRows facility trigger with
  | some n => some (n, st)
  | none =>
    let tag := nameTag facility
    let dash := nameTagDash facility
    let alphabet := nameAlphabet facility
    let seqKey := tag ++ "_" ++ dateKey
    match lookupSeq st.grbNameCache seqKey with
    | some letter =>
      match alphabet.indexOf? letter with
      | none => none
      | some i =>
        let nextLetter :=
          if i + 1 < alphabet.length then alphabet.getD (i + 1) 'A'
          else alphabet.getLastD 'A'
        some (formatGrbName tag dash dateKey nextLetter,
          { st with grbNameCache := upsertSeq st.grbNameCache seqKey nextLetter })
    | none =>
      let firstLetter := alphabet.headD 'A'
      some (formatGrbName tag dash dateKey firstLetter,
        { st with grbNameCache := upsertSeq st.grbNameCache seqKey firstLetter })

/-- `GCNNoticeHandler.save_to_csv`: the ledger write is an append of one
row; existing rows are untouched. -/
def save_to_csv (rows : List NoticeRow) (r : NoticeRow) : List NoticeRow :=
  rows ++ [r]

/-- One notice through the resolve-and-persist pipeline of `gcn_bot.py`:
`_generate_grb_name` assigns the canonical name, then `save_to_csv`
appends the ledger row carrying it. -/
def resolve_notice (st : HandlerState) (dateKey facility trigger : String) :
    Option (String × HandlerState) :=
  match generate_grb_name st dateKey facility trigger with
  | none => none
  | some (n, st') =>
    some (n, { st' with csvRows := save_to_csv st'.csvRows ⟨n, facility, trigger⟩ })

theorem load_name_cache_append (rows : List NoticeRow) (r : NoticeRow) :
    load_name_cache (rows ++ [r]) =
      if validRow r then upsertKey (load_name_cache rows) (r.facility, r.trigger) r.name
      else load_name_cache rows := by
  unfold load_name_cache
  rw [List.foldl_append]
  rfl

theorem cacheLookup_upsertKey (c : List ((String × String) × String))
    (f t n : String) :
    cacheLookup (upsertKey c (f, t) ((cacheLookup c f t).getD n)) f t =
      some ((cacheLookup c f t).getD n) := by
  induction c with
  | nil => simp [cacheLookup, upsertKey, List.findSome?_cons]
  | cons e es ih =>
    by_cases hk : e.1 = (f, t)
    · have hp : normalize_facility_name e.1.1 = normalize_facility_name f ∧ e.1.2 = t := by
        rw [hk]; exact ⟨rfl, rfl⟩
      simp [cacheLookup, upsertKey, hk, List.findSome?_cons, hp]
    · by_cases hp : normalize_facility_name e.1.1 = normalize_facility_name f ∧ e.1.2 = t
      · simp [cacheLookup, upsertKey, hk, List.findSome?_cons, hp]
      · simp only [upsertKey]
        rw [if_neg hk]
        simp only [cacheLookup, List.findSome?_cons, if_neg hp] at ih ⊢
        exact ih

theorem cacheLookup_mem {c : List ((String × String) × String)} {f t m : String}
    (h : cacheLookup c f t = some m) : ∃ e ∈ c, e.2 = m := by
  induction c with
  | nil => simp [cacheLookup] at h
  | cons e es ih =>
    rw [cacheLookup, List.findSome?_cons] at h
    by_cases hp : normalize_facility_name e.1.1 = normalize_facility_name f ∧ e.1.2 = t
    · rw [if_pos hp] at h
      exact ⟨e, List.mem_cons_self .., Option.some_injective _ h⟩
    · rw [if_neg hp] at h
      obtain ⟨e', he', hv⟩ := ih h
      exact ⟨e', List.mem_cons_of_mem _ he', hv⟩

theorem upsertKey_values {c : List ((String × String) × String)} {k : String × String}
    {v : String} (hc : ∀ e ∈ c, e.2 ≠ "") (hv : v ≠ "") :
    ∀ e ∈ upsertKey c k v, e.2 ≠ "" := by
  induction c with
  | nil => simpa [upsertKey] using hv
  | cons e es ih =>
    by_cases hk : e.1 = k
    · simp only [upsertKey, if_pos hk]
      intro e' he'
      rcases List.mem_cons.mp he' with h | h
      · rw [h]; exact hv
      · exact hc e' (List.mem_cons_of_mem _ h)
    · simp only [upsertKey, if_neg hk]
      intro e' he'
      rcases List.mem_cons.mp he' with h | h
      · rw [h]; exact hc e (List.mem_cons_self ..)
      · exact ih (fun x hx => hc x (List.mem_cons_of_mem _ hx)) e' h

theorem load_name_cache_values_ne_empty (rows : List NoticeRow) :
    ∀ e ∈ load_name_cache rows, e.2 ≠ "" := by
  suffices h : ∀ c, (∀ e ∈ c, e.2 ≠ "") →
      ∀ e ∈ rows.foldl
        (fun c r => if validRow r then upsertKey c (r.facility, r.trigger) r.name else c) c,
      e.2 ≠ "" by
    exact h [] (by simp)
  induction rows with
  | nil => intro c hc; simpa using hc
  | cons r rs ih =>
    intro c hc
    simp only [List.foldl_cons]
    by_cases hr : validRow r
    · rw [if_pos hr]
      refine ih _ (upsertKey_values hc ?_)
      have hr' := hr
      simp [validRow] at hr'
      exact hr'.2
    · rw [if_neg hr]
      exact ih _ hc

theorem event_exists_ne_empty {rows : List NoticeRow} {f t m : String}
    (h : event_exists rows f t = some m) : m ≠ "" := by
  unfold event_exists at h
  by_cases hg : f = "" ∨ t = ""
  · simp [hg] at h
  · rw [if_neg hg] at h
    obtain ⟨e, he, hv⟩ := cacheLookup_mem h
    rw [← hv]
    exact load_name_cache_values_ne_empty rows e he

theorem formatGrbName_ne_empty (tag : String) (dash : Bool) (d : String) (c : Char) :
    formatGrbName tag dash d c ≠ "" := by
  unfold formatGrbName
  split <;>
    (intro h; apply_fun String.data at h;
     simp [String.data_append, List.append_eq_nil] at h)

theorem event_exists_append (rows : List NoticeRow) (f t n : String)
    (hf : f ≠ "") (ht : t ≠ "") (hn : (event_exists rows f t).getD n ≠ "") :
    event_exists (rows ++ [⟨(event_exists rows f t).getD n, f, t⟩]) f t =
      some ((event_exists rows f t).getD n) := by
  have hg : ¬(f = "" ∨ t = "") := by
    rintro (h | h) <;> [exact hf h; exact ht h]
  have hee : event_exists rows f t = cacheLookup (load_name_cache rows) f t := by
    unfold event_exists; rw [if_neg hg]
  rw [hee] at hn ⊢
  have hv : validRow ⟨(cacheLookup (load_name_cache rows) f t).getD n, f, t⟩ = true := by
    simp [validRow, hf, ht, hn]
  unfold event_exists
  rw [if_neg hg, load_name_cache_append, if_pos hv]
  simpa using cacheLookup_upsertKey (load_name_cache rows) f t n

theorem generate_grb_name_spec {st : HandlerState} {d f t n : String} {st' : HandlerState}
    (h : generate_grb_name st d f t = some (n, st')) :
    n ≠ "" ∧ st'.csvRows = st.csvRows ∧ (event_exists st.csvRows f t).getD n = n := by
  cases hee : event_exists st.csvRows f t with
  | some m =>
    simp only [generate_grb_name, hee, Option.some.injEq, Prod.mk.injEq] at h
    obtain ⟨hm, hst⟩ := h
    subst hm hst
    exact ⟨event_exists_ne_empty hee, rfl, rfl⟩
  | none =>
    simp only [Option.getD_none]
    cases hseq : lookupSeq st.grbNameCache (nameTag f ++ "_" ++ d) with
    | none =>
      simp only [generate_grb_name, hee, hseq, Option.some.injEq, Prod.mk.injEq] at h
      obtain ⟨hm, hst⟩ := h
      subst hm
      rw [← hst]
      exact ⟨formatGrbName_ne_empty _ _ _ _, rfl, trivial⟩
    | some letter =>
      cases hidx : (nameAlphabet f).indexOf? letter with
      | none => simp [generate_grb_name, hee, hseq, hidx] at h
      | some i =>
        simp only [generate_grb_name, hee, hseq, hidx, Option.some.injEq,
          Prod.mk.injEq] at h
        obtain ⟨hm, hst⟩ := h
        subst hm
        rw [← hst]
        exact ⟨formatGrbName_ne_empty _ _ _ _, rfl, trivial⟩

theorem resolve_notice_spec {st : HandlerState} {d f t n : String} {st₁ : HandlerState}
    (h : resolve_notice st d f t = some (n, st₁)) :
    st₁.csvRows = st.csvRows ++ [(⟨n, f, t⟩ : NoticeRow)] ∧
      (event_exists st.csvRows f t).getD n = n ∧ n ≠ "" := by
  unfold resolve_notice at h
  cases hg : generate_grb_name st d f t with
  | none => rw [hg] at h; exact absurd h (by simp)
  | some p =>
    obtain ⟨m, st'⟩ := p
    rw [hg] at h
    simp only [Option.some.injEq, Prod.mk.injEq] at h
    obtain ⟨hm, hst⟩ := h
    obtain ⟨hne, hcsv, hgd⟩ := generate_grb_name_spec hg
    subst hm
    rw [← hst]
    exact ⟨by simp [save_to_csv, hcsv], hgd, hne⟩

/-- C1.  Resolving the same `(facility, trigger_num)` identity twice yields
the same canonical name: once a notice has been resolved to name `n` and
its ledger row persisted, any later resolution of that identity — from the
in-process state or from any state whose caches are rebuilt from the same
persisted CSV ledger (a restart) — finds the existing event and returns
`n` again. -/
theorem resolve_notice_idempotent (st : HandlerState) (d f t n : String)
    (st₁ : HandlerState) (hf : f ≠ "") (ht : t ≠ "")
    (h : resolve_notice st d f t = some (n, st₁))
    (st' : HandlerState) (hcsv : st'.csvRows = st₁.csvRows) (d' : String) :
    resolve_notice st' d' f t =
      some (n, { st' with csvRows := st'.csvRows ++ [⟨n, f, t⟩] }) := by
  obtain ⟨h1, h2, h3⟩ := resolve_notice_spec h
  have hee2 : event_exists st'.csvRows f t = some n := by
    rw [hcsv, h1]
    have hap := event_exists_append st.csvRows f t n hf ht (by rw [h2]; exact h3)
    rw [h2] at hap
    exact hap
  unfold resolve_notice generate_grb_name
  rw [hee2]
  rfl

/-- Witness for C1 at a concrete input: a Swift BAT notice resolved to
`GRB 250101A`, persisted, then resolved again on a later date. -/
theorem resolve_notice_idempotent_witness :
    resolve_notice ⟨[], []⟩ "250101" "SwiftBAT" "100" =
      some ("GRB 250101A",
        ⟨[⟨"GRB 250101A", "SwiftBAT", "100"⟩], [("GRB_250101", 'A')]⟩) ∧
    resolve_notice ⟨[⟨"GRB 250101A", "SwiftBAT", "100"⟩], [("GRB_250101", 'A')]⟩
        "250102" "SwiftBAT" "100" =
      some ("GRB 250101A",
        ⟨[⟨"GRB 250101A", "SwiftBAT", "100"⟩, ⟨"GRB 250101A", "SwiftBAT", "100"⟩],
         [("GRB_250101", 'A')]⟩) :=
  ⟨by decide,
   resolve_notice_idempotent ⟨[], []⟩ "250101" "SwiftBAT" "100" "GRB 250101A"
     ⟨[⟨"GRB 250101A", "SwiftBAT", "100"⟩], [("GRB_250101", 'A')]⟩
     (by decide) (by decide) (by decide) _ rfl "250102"⟩

/-- C6.  The name sequencer: for an event not already in the ledger, an
unseen `(tag, day)` sequence key yields the alphabet's first letter, and a
key already holding letter `L` (at index `i` of the tag's alphabet) yields
the successor of `L` capped at the alphabet's last letter — in both cases
successfully (never wrapping past the last letter and never failing).
Receipt order follows: a first notice gets the first letter and a second
same-day notice gets the second (see the witness). -/
theorem name_sequencer_next_letter (st : HandlerState) (d f t : String)
    (hfresh : event_exists st.csvRows f t = none) :
    (lookupSeq st.grbNameCache (nameTag f ++ "_" ++ d) = none →
      ∃ st₂, generate_grb_name st d f t =
        some (formatGrbName (nameTag f) (nameTagDash f) d
          ((nameAlphabet f).headD 'A'), st₂)) ∧
    (∀ L i, lookupSeq st.grbNameCache (nameTag f ++ "_" ++ d) = some L →
      (nameAlphabet f).indexOf? L = some i →
      ∃ st₂, generate_grb_name st d f t =
        some (formatGrbName (nameTag f) (nameTagDash f) d
          (if i + 1 < (nameAlphabet f).length then (nameAlphabet f).getD (i + 1) 'A'
           else (nameAlphabet f).getLastD 'A'), st₂)) := by
  constructor
  · intro hseq
    refine ⟨⟨st.csvRows, upsertSeq st.grbNameCache (nameTag f ++ "_" ++ d) ((nameAlphabet f).headD 'A')⟩, ?_⟩
    simp only [generate_grb_name, hfresh, hseq]
  · intro L i hseq hidx
    refine ⟨⟨st.csvRows, upsertSeq st.grbNameCache (nameTag f ++ "_" ++ d) (if i + 1 < (nameAlphabet f).length then (nameAlphabet f).getD (i + 1) 'A' else (nameAlphabet f).getLastD 'A')⟩, ?_⟩
    simp only [generate_grb_name, hfresh, hseq, hidx]

/-- Witness for C6: a fresh Fermi notice on an unseen day gets letter `A`
(by the theorem), and running the pipeline twice on the same day with two
distinct triggers yields `GRB 250101A` then `GRB 250101B`, in receipt
order. -/
theorem name_sequencer_next_letter_witness :
    (∃ st₂, generate_grb_name ⟨[], []⟩ "250101" "FermiGBM" "1" =
      some (formatGrbName (nameTag "FermiGBM") (nameTagDash "FermiGBM") "250101"
        ((nameAlphabet "FermiGBM").headD 'A'), st₂)) ∧
    resolve_notice ⟨[], []⟩ "250101" "FermiGBM" "1" =
      some ("GRB 250101A",
        ⟨[⟨"GRB 250101A", "FermiGBM", "1"⟩], [("GRB_250101", 'A')]⟩) ∧
    resolve_notice ⟨[⟨"GRB 250101A", "FermiGBM", "1"⟩], [("GRB_250101", 'A')]⟩
        "250101" "FermiGBM" "2" =
      some ("GRB 250101B",
        ⟨[⟨"GRB 250101A", "FermiGBM", "1"⟩, ⟨"GRB 250101B", "FermiGBM", "2"⟩],
         [("GRB_250101", 'B')]⟩) :=
  ⟨(name_sequencer_next_letter ⟨[], []⟩ "250101" "FermiGBM" "1" (by decide)).1
     (by decide),
   by decide, by decide⟩

/-- The duplicate-name repair inside `_verify_csv_integrity(repair=True)`:
`df.drop_duplicates(subset=['Name'], keep='first')`, after which the file
is rewritten.  The accumulator carries the names already seen. -/
def dropDupNamesAux : List NoticeRow → List String → List NoticeRow
  | [], _ => []
  | r :: rs, seen =>
    if r.name ∈ seen then dropDupNamesAux rs seen
    else r :: dropDupNamesAux rs (r.name :: seen)

/-- `GCNNoticeHandler._verify_csv_integrity` with `repair=True` (the
scheduled verification of `_check_verify_schedule` runs it this way):
the row-set effect of its duplicate-GRB-name repair. -/
def verify_csv_integrity_repair (rows : List NoticeRow) : List NoticeRow :=
  dropDupNamesAux rows []

/-- Counterexample to C4: two ledger rows sharing the name
`GRB 250101A`; the scheduled integrity repair deletes the second row, so
it is not true that no operation ever updates or deletes a ledger row. -/
theorem ledger_immutable_counterexample :
    verify_csv_integrity_repair
        [⟨"GRB 250101A", "SwiftBAT", "1"⟩, ⟨"GRB 250101A", "FermiGBM", "2"⟩] =
      [⟨"GRB 250101A", "SwiftBAT", "1"⟩] ∧
    (⟨"GRB 250101A", "FermiGBM", "2"⟩ : NoticeRow) ∈
      [(⟨"GRB 250101A", "SwiftBAT", "1"⟩ : NoticeRow),
       ⟨"GRB 250101A", "FermiGBM", "2"⟩] ∧
    (⟨"GRB 250101A", "FermiGBM", "2"⟩ : NoticeRow) ∉
      verify_csv_integrity_repair
        [⟨"GRB 250101A", "SwiftBAT", "1"⟩, ⟨"GRB 250101A", "FermiGBM", "2"⟩] := by
  decide

/-- C4 amended.  `save_to_csv` only ever appends: after a write, every
previously written row is intact at its index and exactly one row is
added.  (The exception is the scheduled `_verify_csv_integrity(repair=True)`
pass, which deletes rows with duplicate names and rewrites malformed
dates — see the counterexample.) -/
theorem save_to_csv_append_only (rows : List NoticeRow) (r : NoticeRow) (i : ℕ)
    (hi : i < rows.length) :
    (save_to_csv rows r)[i]? = rows[i]? ∧
      (save_to_csv rows r).length = rows.length + 1 := by
  constructor
  · unfold save_to_csv
    exact List.getElem?_append_left hi
  · simp [save_to_csv]

/-- Witness for C4's amended theorem at a concrete one-row ledger. -/
theorem save_to_csv_append_only_witness :
    (save_to_csv [⟨"GRB 250101A", "SwiftBAT", "1"⟩] ⟨"GRB 250101B", "FermiGBM", "2"⟩)[0]? =
        [(⟨"GRB 250101A", "SwiftBAT", "1"⟩ : NoticeRow)][0]? ∧
      (save_to_csv [⟨"GRB 250101A", "SwiftBAT", "1"⟩]
        ⟨"GRB 250101B", "FermiGBM", "2"⟩).length = 1 + 1 :=
  save_to_csv_append_only [⟨"GRB 250101A", "SwiftBAT", "1"⟩]
    ⟨"GRB 250101B", "FermiGBM", "2"⟩ 0 (by decide)

/-- The identity match of `save_to_ascii`: normalized facility equality
plus trigger string equality. -/
def asciiMatches (r : NoticeRow) (facility trigger : String) : Bool :=
  (normalize_facility_name r.facility = normalize_facility_name facility) &&
    (r.trigger = trigger)

/-- In-place update of an existing ASCII row: columns with a nonempty
incoming value overwrite; empty incoming values preserve the stored ones
(restricted to the identity columns kept in this model — the remaining
columns never affect membership, ordering or the row count). -/
def updateAsciiRow (r d : NoticeRow) : NoticeRow :=
  ⟨if d.name = "" then r.name else d.name,
   if d.facility = "" then r.facility else d.facility,
   if d.trigger = "" then r.trigger else d.trigger⟩

/-- `GCNNoticeHandler.save_to_ascii` at table level: update the matching
row in place, or prepend a brand-new row at the top; in both branches the
table is then truncated to the first `maxEvents` rows
(`df.head(self.ascii_max_events)`). -/
def save_to_ascii (table : List NoticeRow) (d : NoticeRow) (maxEvents : ℕ) :
    List NoticeRow :=
  match table.findIdx? (fun r => asciiMatches r d.facility d.trigger) with
  | some i => (table.set i (updateAsciiRow (table.getD i ⟨"", "", ""⟩) d)).take maxEvents
  | none => (d :: table).take maxEvents

/-- A sequence of notices written to the ASCII store in receipt order. -/
def save_all_to_ascii (table : List NoticeRow) (ds : List NoticeRow) (maxEvents : ℕ) :
    List NoticeRow :=
  ds.foldl (fun tb d => save_to_ascii tb d maxEvents) table

theorem findIdx?_eq_none_of_all_false {l : List NoticeRow} {p : NoticeRow → Bool}
    (h : ∀ r ∈ l, p r = false) : l.findIdx? p = none := by
  induction l with
  | nil => rfl
  | cons r rs ih =>
    rw [List.findIdx?_cons]
    rw [h r (List.mem_cons_self ..)]
    simpa using ih (fun x hx => h x (List.mem_cons_of_mem _ hx))

theorem save_all_to_ascii_fresh (N : ℕ) (ds : List NoticeRow) :
    ∀ l : List NoticeRow,
    ds.Pairwise (fun x y => asciiMatches x y.facility y.trigger = false) →
    (∀ r ∈ l, ∀ d ∈ ds, asciiMatches r d.facility d.trigger = false) →
    save_all_to_ascii (l.take N) ds N = (ds.reverse ++ l).take N := by
  induction ds with
  | nil => intro l _ _; simp [save_all_to_ascii]
  | cons d ds ih =>
    intro l hp hl
    have hstep : save_to_ascii (l.take N) d N = (d :: l).take N := by
      unfold save_to_ascii
      rw [findIdx?_eq_none_of_all_false]
      · show List.take N (d :: List.take N l) = List.take N (d :: l)
        cases N with
        | zero => rfl
        | succ n =>
          rw [List.take_succ_cons, List.take_succ_cons, List.take_take,
            Nat.min_eq_left (Nat.le_succ n)]
      · intro r hr
        exact hl r (List.mem_of_mem_take hr) d (List.mem_cons_self ..)
    have hfold : save_all_to_ascii (l.take N) (d :: ds) N =
        save_all_to_ascii ((d :: l).take N) ds N := by
      unfold save_all_to_ascii
      rw [List.foldl_cons]
      unfold save_all_to_ascii at *
      rw [hstep]
    rw [hfold, ih (d :: l) (List.Pairwise.sublist (List.sublist_cons_self d ds) hp)]
    · simp
    · intro r hr e he
      rcases List.mem_cons.mp hr with h | h
      · subst h
        exact (List.pairwise_cons.mp hp).1 e he
      · exact hl r h e (List.mem_cons_of_mem _ he)

theorem asciiMatches_self (r : NoticeRow) : asciiMatches r r.facility r.trigger = true := by
  simp [asciiMatches]

/-- C5 amended.  The notice handler's `save_to_ascii` keeps the Active
Window within its configured capacity: every write truncates to at most
`N` rows, and writing `N + 1` distinct identities into an empty store
leaves exactly the `N` most recent, with the first-written (hence
least-recently-updated) identity absent.  (The circular handler's ASCII
update enforces no such cap — see the counterexample.) -/
theorem ascii_capacity_and_eviction (N : ℕ) (first : NoticeRow)
    (rest : List NoticeRow)
    (hp : (first :: rest).Pairwise (fun x y => asciiMatches x y.facility y.trigger = false))
    (hlen : rest.length = N) :
    (∀ table d, (save_to_ascii table d N).length ≤ N) ∧
    save_all_to_ascii [] (first :: rest) N = rest.reverse ∧
    (save_all_to_ascii [] (first :: rest) N).length = N ∧
    first ∉ save_all_to_ascii [] (first :: rest) N := by
  have hmain : save_all_to_ascii [] (first :: rest) N = rest.reverse := by
    have h0 : ([] : List NoticeRow) = ([] : List NoticeRow).take N := by simp
    rw [h0, save_all_to_ascii_fresh N (first :: rest) [] hp (by simp)]
    rw [List.reverse_cons, List.append_nil]
    exact List.take_left' (by simp [hlen])
  refine ⟨?_, hmain, ?_, ?_⟩
  · intro table d
    unfold save_to_ascii
    cases table.findIdx? (fun r => asciiMatches r d.facility d.trigger) <;>
      simp [List.length_take]
  · rw [hmain]; simp [hlen]
  · rw [hmain]
    intro hmem
    have hfirst := (List.pairwise_cons.mp hp).1 first (List.mem_reverse.mp hmem)
    rw [asciiMatches_self] at hfirst
    simp at hfirst

/-- Witness for C5's amended theorem: capacity 2, three distinct
identities inserted in order; the first-inserted row is evicted. -/
theorem ascii_capacity_and_eviction_witness :
    (∀ table d, (save_to_ascii table d 2).length ≤ 2) ∧
    save_all_to_ascii []
        [⟨"GRB 250101A", "SwiftBAT", "1"⟩, ⟨"GRB 250101B", "FermiGBM", "2"⟩,
         ⟨"GRB 250101C", "CALET", "3"⟩] 2 =
      [(⟨"GRB 250101C", "CALET", "3"⟩ : NoticeRow), ⟨"GRB 250101B", "FermiGBM", "2"⟩] ∧
    (save_all_to_ascii []
        [⟨"GRB 250101A", "SwiftBAT", "1"⟩, ⟨"GRB 250101B", "FermiGBM", "2"⟩,
         ⟨"GRB 250101C", "CALET", "3"⟩] 2).length = 2 ∧
    (⟨"GRB 250101A", "SwiftBAT", "1"⟩ : NoticeRow) ∉
      save_all_to_ascii []
        [⟨"GRB 250101A", "SwiftBAT", "1"⟩, ⟨"GRB 250101B", "FermiGBM", "2"⟩,
         ⟨"GRB 250101C", "CALET", "3"⟩] 2 :=
  ascii_capacity_and_eviction 2 ⟨"GRB 250101A", "SwiftBAT", "1"⟩
    [⟨"GRB 250101B", "FermiGBM", "2"⟩, ⟨"GRB 250101C", "CALET", "3"⟩]
    (by decide) (by decide)

/-- The mode gate of `GCNNoticeHandler._parse_notice` (lines 908-930): the
facility's pattern table is abstracted as the list of `(key, matched)`
outcomes of `re.search` on the payload.  Strict mode rejects the whole
record when any pattern is missing; lenient mode rejects it only when no
pattern matched.  Otherwise a record is returned: the extracted field set
always contains `notice_date`, which `_parse_notice` initializes to the
current time, so the later `found_fields` guard never rejects. -/
def parse_notice_modecheck (strict : Bool) (matched : List (String × Bool)) :
    Option (List String) :=
  if strict then
    if (matched.filter (fun kv => kv.2 = false)).map Prod.fst ≠ [] then none
    else some ("notice_date" :: (matched.filter (fun kv => kv.2 = true)).map Prod.fst)
  else
    if (matched.filter (fun kv => kv.2 = true)).map Prod.fst = [] then none
    else some ("notice_date" :: (matched.filter (fun kv => kv.2 = true)).map Prod.fst)

/-- C7.  Strict mode returns a record exactly when every pattern of the
facility's table matched; lenient mode returns a record exactly when at
least one pattern matched (the missing ones are only logged). -/
theorem parse_notice_modes (matched : List (String × Bool)) :
    ((parse_notice_modecheck true matched).isSome = true ↔
      ∀ kv ∈ matched, kv.2 = true) ∧
    ((parse_notice_modecheck false matched).isSome = true ↔
      ∃ kv ∈ matched, kv.2 = true) := by
  constructor
  · rw [parse_notice_modecheck]
    rw [if_pos rfl]
    by_cases h : (matched.filter (fun kv => kv.2 = false)).map Prod.fst ≠ []
    · rw [if_pos h]
      simp only [Option.isSome_none, Bool.false_eq_true, false_iff]
      intro hall
      apply h
      simp only [List.map_eq_nil_iff, List.filter_eq_nil_iff]
      intro kv hkv
      simp [hall kv hkv]
    · rw [if_neg h]
      simp only [Option.isSome_some, true_iff]
      push_neg at h
      simp only [List.map_eq_nil_iff, List.filter_eq_nil_iff] at h
      intro kv hkv
      have := h kv hkv
      simpa using this
  · rw [parse_notice_modecheck]
    rw [if_neg (by simp)]
    by_cases h : (matched.filter (fun kv => kv.2 = true)).map Prod.fst = []
    · rw [if_pos h]
      simp only [Option.isSome_none, Bool.false_eq_true, false_iff]
      simp only [List.map_eq_nil_iff, List.filter_eq_nil_iff] at h
      rintro ⟨kv, hkv, hv⟩
      exact absurd (by simpa using hv) (by simpa using h kv hkv)
    · rw [if_neg h]
      simp only [Option.isSome_some, true_iff]
      rcases List.exists_mem_of_ne_nil
        ((matched.filter (fun kv => kv.2 = true)).map Prod.fst) h with ⟨x, hx⟩
      rcases List.mem_map.mp hx with ⟨kv, hkv, _⟩
      exact ⟨kv, List.mem_of_mem_filter hkv, by simpa using List.of_mem_filter hkv⟩

/-- The `monitored_facilities` table of `GCNNoticeHandler.__init__`, in
insertion order. -/
def monitored_facilities : List (String × List String) :=
  [("SwiftBAT", ["SWIFT_BAT_GRB_POS_ACK"]),
   ("SwiftXRT", ["SWIFT_XRT_POSITION"]),
   ("SwiftUVOT", ["SWIFT_UVOT_POS"]),
   ("FermiGBM", ["FERMI_GBM_GND_POS", "FERMI_GBM_FIN_POS", "FERMI_GBM_FLT_POS"]),
   ("FermiLAT", ["FERMI_LAT_OFFLINE"]),
   ("AMON", ["AMON_NU_EM_COINC"]),
   ("IceCubeCASCADE", ["ICECUBE_CASCADE"]),
   ("HAWC", ["HAWC_BURST_MONITOR"]),
   ("IceCubeBRONZE", ["ICECUBE_ASTROTRACK_BRONZE"]),
   ("IceCubeGOLD", ["ICECUBE_ASTROTRACK_GOLD"]),
   ("CALET", ["CALET_GBM_FLT_LC"]),
   ("EinsteinProbe", ["einstein_probe"])]

/-- `GCNNoticeHandler._get_facility`: the first facility one of whose
topic fragments occurs in the message topic. -/
def get_facility (topic : String) : Option String :=
  monitored_facilities.findSome? (fun ft =>
    if ft.2.any (fun s => strContains topic s) then some ft.1 else none)

/-- The observable behaviour of a raw payload under the operations
`parse_notice` applies to it: whether the UTF-8 decode of the bytes
succeeds, whether JSON parsing succeeds (Einstein Probe path), and the
per-pattern `re.search` outcomes (key-value text paths). -/
structure RawPayload where
  decodable : Bool
  jsonValid : Bool
  matched : List (String × Bool)

/-- `GCNNoticeHandler.parse_notice`: resolve the facility from the topic,
decode the payload, and dispatch to the per-facility parser; Swift, Fermi,
the AMON/IceCube/HAWC family and CALET run the key-value mode gate,
Einstein Probe parses JSON (a record with defaulted `error`,
`notice_date`, `trigger_num` fields is produced for any valid JSON).
Every failure path (unknown facility, undecodable bytes, invalid JSON, no
field extracted) returns `none` — the source wraps the body in
`try/except` returning `None`. -/
def parse_notice (strict : Bool) (topic : String) (p : RawPayload) :
    Option (List String) :=
  match get_facility topic with
  | none => none
  | some facility =>
    if p.decodable = false then none
    else if strContains facility "Swift" then parse_notice_modecheck strict p.matched
    else if strContains facility "Fermi" then parse_notice_modecheck strict p.matched
    else if ["AMON", "IceCubeCASCADE", "HAWC", "IceCubeBRONZE", "IceCubeGOLD",
        "IceCube"].any (fun x => strContains facility x) then
      parse_notice_modecheck strict p.matched
    else if strContains facility "CALET" then parse_notice_modecheck strict p.matched
    else if strContains facility "EinsteinProbe" then
      if p.jsonValid = false then none
      else some ["error", "notice_date", "trigger_num"]
    else none

/-- C10.  `parse_notice` is total (it is a function) and returns `none`
rather than failing on every error path: a topic matching no monitored
facility, an undecodable payload, invalid JSON for an Einstein Probe
notice, and a payload from which no field can be extracted (all patterns
unmatched in lenient mode, or any pattern missing in strict mode). -/
theorem parse_notice_never_raises (strict : Bool) (topic : String) (p : RawPayload) :
    (get_facility topic = none → parse_notice strict topic p = none) ∧
    (p.decodable = false → parse_notice strict topic p = none) ∧
    (get_facility topic = some "EinsteinProbe" → p.jsonValid = false →
      parse_notice strict topic p = none) ∧
    (strict = false → (∀ kv ∈ p.matched, kv.2 = false) → p.jsonValid = false →
      parse_notice strict topic p = none) := by
  refine ⟨?_, ?_, ?_, ?_⟩
  · intro h
    simp [parse_notice, h]
  · intro h
    unfold parse_notice
    cases get_facility topic with
    | none => rfl
    | some facility => simp [h]
  · intro hf hj
    simp only [parse_notice, hf]
    cases hd : p.decodable with
    | false => simp
    | true =>
      have hA : strContains "EinsteinProbe" "Swift" = false := by decide
      have hB : strContains "EinsteinProbe" "Fermi" = false := by decide
      have hC : strContains "EinsteinProbe" "AMON" = false := by decide
      have hD : strContains "EinsteinProbe" "IceCubeCASCADE" = false := by decide
      have hE : strContains "EinsteinProbe" "HAWC" = false := by decide
      have hF : strContains "EinsteinProbe" "IceCubeBRONZE" = false := by decide
      have hG : strContains "EinsteinProbe" "IceCubeGOLD" = false := by decide
      have hH : strContains "EinsteinProbe" "IceCube" = false := by decide
      have hI : strContains "EinsteinProbe" "CALET" = false := by decide
      have hJ : strContains "EinsteinProbe" "EinsteinProbe" = true := by decide
      simp [hA, hB, hC, hD, hE, hF, hG, hH, hI, hJ, hj]
  · intro hs hm hj
    subst hs
    have hmode : parse_notice_modecheck false p.matched = none := by
      unfold parse_notice_modecheck
      rw [if_neg (by simp)]
      rw [if_pos]
      simp only [List.map_eq_nil_iff, List.filter_eq_nil_iff]
      intro kv hkv
      simp [hm kv hkv]
    unfold parse_notice
    cases get_facility topic with
    | none => rfl
    | some facility =>
      simp only []
      split
      · rfl
      · split
        · exact hmode
        · split
          · exact hmode
          · split
            · exact hmode
            · split
              · exact hmode
              · split
                · simp [hj]
                · rfl

/-- Witness for C10 at concrete inputs: an unmonitored topic, an
undecodable payload, an invalid Einstein Probe JSON and an
all-patterns-missed Swift payload each parse to `none`. -/
theorem parse_notice_never_raises_witness :
    parse_notice false "gcn.classic.text.UNKNOWN_TOPIC" ⟨true, true, []⟩ = none ∧
    parse_notice false "gcn.classic.text.SWIFT_BAT_GRB_POS_ACK" ⟨false, true, []⟩ = none ∧
    parse_notice false "gcn.notices.einstein_probe.wxt.notice" ⟨true, false, []⟩ = none ∧
    parse_notice false "gcn.classic.text.SWIFT_BAT_GRB_POS_ACK"
      ⟨true, false, [("ra", false), ("dec", false)]⟩ = none :=
  ⟨(parse_notice_never_raises false "gcn.classic.text.UNKNOWN_TOPIC"
      ⟨true, true, []⟩).1 (by decide),
   (parse_notice_never_raises false "gcn.classic.text.SWIFT_BAT_GRB_POS_ACK"
      ⟨false, true, []⟩).2.1 rfl,
   (parse_notice_never_raises false "gcn.notices.einstein_probe.wxt.notice"
      ⟨true, false, []⟩).2.2.1 (by decide) rfl,
   (parse_notice_never_raises false "gcn.classic.text.SWIFT_BAT_GRB_POS_ACK"
      ⟨true, false, [("ra", false), ("dec", false)]⟩).2.2.2 rfl (by decide) rfl⟩

end NoticeHandler

namespace CircularHandler

/-- Python whitespace characters recognized by `str.strip()` (the subset
that can occur in the handled fields). -/
def isSpaceChar (c : Char) : Bool := c = ' ' || c = '\t' || c = '\n' || c = '\r'

/-- Python `s.strip()` on char lists. -/
def trimChars (l : List Char) : List Char :=
  ((l.dropWhile isSpaceChar).reverse.dropWhile isSpaceChar).reverse

/-- Python `s.strip().strip('"')`, the normalization `_update_ascii_database`
applies to the stored `Name` cell before comparing it with the incoming
event name. -/
def stripQuotes (s : String) : String :=
  String.mk ((((trimChars s.toList).dropWhile (fun c => c = '"')).reverse.dropWhile
    (fun c => c = '"')).reverse)

/-- ASCII lowercasing (Python `str.lower()` on the facility names that
occur here, which are ASCII). -/
def lowerChar (c : Char) : Char :=
  if 'A' ≤ c ∧ c ≤ 'Z' then Char.ofNat (c.toNat + 32) else c

/-- Python `s.lower()`. -/
def pyLower (s : String) : String := String.mk (s.toList.map lowerChar)

/-- `GCNCircularHandler._normalize_facility_name`.  Every key of the
source's `swift_mappings` dict contains the first key `"Swift"`, and the
loop returns on the first lowercase-substring hit, so the Swift branch
reduces to one case-insensitive substring test. -/
def normalize_facility_name (facility : String) : String :=
  if facility = "" then ""
  else
    let f := String.mk (trimChars facility.toList)
    if strContains (pyLower f) "swift" then "Swift"
    else if strContains f "Fermi" || strContains f "GBM" || strContains f "LAT" then "Fermi"
    else if strContains f "GECAM" then "GECAM"
    else if strContains f "SVOM" || strContains f "ECLAIRs" then "SVOM"
    else if strContains f "CALET" then "CALET"
    else f

/-- The static position-accuracy table of
`GCNCircularHandler._get_facility_priority` (exact-key dict). -/
def facility_priorities : List (String × ℕ) :=
  [("SwiftXRT", 10), ("Swift-XRT", 10), ("SwiftBAT", 7), ("Swift-BAT", 7),
   ("Swift", 6), ("FermiLAT", 5), ("Fermi-LAT", 5), ("SVOM", 4),
   ("FermiGBM", 3), ("Fermi-GBM", 3), ("Fermi", 3), ("GECAM", 2), ("CALET", 2)]

/-- `GCNCircularHandler._get_facility_priority`: 0 for a missing facility
name, the table value for a known key, and the sentinel 1 otherwise. -/
def get_facility_priority (facility : String) : ℕ :=
  if facility = "" then 0
  else ((facility_priorities.lookup facility).getD 1)

/-- `GCNCircularHandler._should_update_position`: replace the position
exactly when the incoming facility's priority is strictly greater. -/
def should_update_position (currentFacility newFacility : String) : Bool :=
  get_facility_priority currentFacility < get_facility_priority newFacility

/-- The fields `process_circular` extracts from one circular.  Python
`None` is modelled as `none` for numeric fields and `""` for string
fields (both are falsy in the source's truth tests).  The discovery
date/time strings are omitted: no claim depends on them and they are
copied through unchanged. -/
structure PartialCirc where
  circularId : String
  eventName : String
  facility : String
  triggerNum : String
  ra : Option ℚ
  dec : Option ℚ
  error : Option ℚ
  errorUnit : String
  redshift : Option ℚ
  hostInfo : String
  falseTrigger : Bool
deriving DecidableEq, Repr

/-- One in-memory row of the circular handler's ASCII table during
`_update_ascii_database`, after `_ensure_ascii_columns` and the
required-column restoration.  `error = none` models the `"N/A"` cell. -/
structure AsciiEvent where
  gcnId : String
  name : String
  ra : Option ℚ
  dec : Option ℚ
  error : Option ℚ
  primaryFacility : String
  bestFacility : String
  allFacilities : String
  facility : String
  triggerNum : String
  lastUpdate : String
  redshift : Option ℚ
  hostInfo : String
deriving DecidableEq, Repr

instance : Inhabited AsciiEvent :=
  ⟨⟨"", "", none, none, none, "", "", "", "", "", "", none, ""⟩⟩

/-- The error-unit conversion inside `_update_ascii_database` (exact
string equality on the unit, unlike `_convert_error_to_degrees`). -/
def errorToDeg (e : ℚ) (unit : String) : ℚ :=
  if unit = "arcsec" then e / 3600
  else if unit = "arcmin" then e / 60
  else e

/-- Whether the circular carries coordinates
(`processed_data.get('ra') is not None and ... dec ...`). -/
def hasCoords (p : PartialCirc) : Bool := p.ra.isSome && p.dec.isSome

/-- Facility tracking (lines 1189-1192): append the incoming facility to
`All_Facilities` when it does not already occur as a substring
(`if facility not in current_all`). -/
def track_facility (ev : AsciiEvent) (p : PartialCirc) : AsciiEvent :=
  if strContains ev.allFacilities p.facility then ev
  else { ev with allFacilities :=
    if ev.allFacilities = "" then p.facility
    else ev.allFacilities ++ "," ++ p.facility }

/-- The best-facility / position update (lines 1194-1215): replace
`Best_Facility` when `_should_update_position` says so, and, when the
circular also carries coordinates, the position, error, main facility and
trigger number.  `none` models the `TypeError` raised when the unit is
arcsec/arcmin but the incoming error is `None`; the exception is caught
by the surrounding handler, which then skips the save, leaving the
persisted table unchanged.  `shouldUpdate` was computed from the row's
`Best_Facility` before any modification. -/
def apply_position_update (shouldUpdate : Bool) (ev1 : AsciiEvent)
    (p : PartialCirc) : Option AsciiEvent :=
  if shouldUpdate then
    let ev2 := { ev1 with bestFacility := p.facility }
    if hasCoords p then
      match p.error with
      | none =>
        if p.errorUnit = "arcsec" ∨ p.errorUnit = "arcmin" then none
        else
          some { ev2 with
                 ra := p.ra, dec := p.dec, error := none, facility := p.facility,
                 triggerNum := if p.triggerNum = "" then ev2.triggerNum else p.triggerNum }
      | some e =>
        some { ev2 with
               ra := p.ra, dec := p.dec, error := some (errorToDeg e p.errorUnit),
               facility := p.facility,
               triggerNum := if p.triggerNum = "" then ev2.triggerNum else p.triggerNum }
    else some ev2
  else some ev1

/-- The unconditional tail of the merge (lines 1217-1226): append the
circular id to the `GCN_ID` list (from the value read before any update),
stamp `Last_Update`, and overwrite redshift/host info when the incoming
values are non-empty. -/
def finalize_entry (origGcnId : String) (ev3 : AsciiEvent) (p : PartialCirc)
    (now : String) : AsciiEvent :=
  let ev4 := { ev3 with
    gcnId := if origGcnId = "" then p.circularId else origGcnId ++ "," ++ p.circularId,
    lastUpdate := now }
  let ev5 := match p.redshift with
    | some z => { ev4 with redshift := some z }
    | none => ev4
  if p.hostInfo = "" then ev5 else { ev5 with hostInfo := p.hostInfo }

/-- The update-existing-entry branch of `_update_ascii_database` (lines
1179-1228), as the composition of its three source blocks. -/
def update_existing_entry (ev : AsciiEvent) (p : PartialCirc) (now : String) :
    Option AsciiEvent :=
  (apply_position_update (should_update_position ev.bestFacility p.facility)
      (track_facility ev p) p).map
    (fun ev3 => finalize_entry ev.gcnId ev3 p now)

/-- The add-new-entry branch of `_update_ascii_database` (lines
1230-1267).  `none` models the `TypeError` raised while formatting a
`None` error value (no guard exists in this branch), which aborts the
whole update. -/
def new_ascii_entry (p : PartialCirc) (now : String) : Option AsciiEvent :=
  match p.error with
  | none => none
  | some e =>
    some { gcnId := p.circularId,
           name := "\"" ++ p.eventName ++ "\"",
           ra := p.ra, dec := p.dec,
           error := some (errorToDeg e p.errorUnit),
           primaryFacility := p.facility,
           bestFacility := p.facility,
           allFacilities := p.facility,
           facility := p.facility,
           triggerNum := p.triggerNum,
           lastUpdate := now,
           redshift := p.redshift,
           hostInfo := if p.hostInfo = "" then "" else "\"" ++ p.hostInfo ++ "\"" }

/-- `GCNCircularHandler._update_ascii_database` at table level: early
returns for missing essentials, then update of the row whose stripped
`Name` equals the incoming event name, or append of a new row when
coordinates and a trigger number are present.  `false_trigger` is never
consulted. -/
def update_ascii_database (table : List AsciiEvent) (p : PartialCirc) (now : String) :
    List AsciiEvent :=
  if p.eventName = "" ∨ p.facility = "" then table
  else if strContains p.facility "Swift" ∧ p.triggerNum = "" ∧ hasCoords p = false then
    table
  else
    match table.findIdx? (fun r => stripQuotes r.name = p.eventName) with
    | some i =>
      match update_existing_entry (table.getD i default) p now with
      | some ev => table.set i ev
      | none => table
    | none =>
      if hasCoords p ∧ p.triggerNum ≠ "" then
        match new_ascii_entry p now with
        | some ev => table ++ [ev]
        | none => table
      else table

/-- `GCNCircularHandler._remove_false_trigger_from_ascii`: drop every row
whose normalized `Primary_Facility` and trigger number match the false
trigger.  This function has no caller anywhere in the repository. -/
def remove_false_trigger_from_ascii (table : List AsciiEvent) (p : PartialCirc) :
    List AsciiEvent :=
  if p.facility = "" ∨ p.triggerNum = "" then table
  else table.filter (fun r =>
    !(normalize_facility_name r.primaryFacility = normalize_facility_name p.facility ∧
      r.triggerNum = p.triggerNum))

/-- One row of the circular CSV database (`gcn_circulars.csv`), restricted
to the columns the claims read. -/
structure CircRow where
  circularId : String
  eventName : String
  facility : String
  triggerNum : String
  falseTrigger : Bool
deriving DecidableEq, Repr

/-- The row `_update_csv_database` builds for a new circular. -/
def rowOfPartial (p : PartialCirc) : CircRow :=
  ⟨p.circularId, p.eventName, p.facility, p.triggerNum, p.falseTrigger⟩

/-- In-place column update for a re-processed circular: non-`None`
incoming values overwrite. -/
def mergeCircRow (r : CircRow) (p : PartialCirc) : CircRow :=
  ⟨r.circularId,
   if p.eventName = "" then r.eventName else p.eventName,
   if p.facility = "" then r.facility else p.facility,
   if p.triggerNum = "" then r.triggerNum else p.triggerNum,
   p.falseTrigger⟩

/-- `GCNCircularHandler._update_csv_database`: update the row with the
same `circular_id` in place, else append a new row. -/
def update_csv_database (rows : List CircRow) (p : PartialCirc) : List CircRow :=
  if rows.any (fun r => r.circularId = p.circularId) then
    rows.map (fun r => if r.circularId = p.circularId then mergeCircRow r p else r)
  else rows ++ [rowOfPartial p]

/-- `GCNCircularHandler.process_circular_from_json` after extraction:
update the CSV database, then the ASCII database.  No false-trigger
eviction happens here: `_remove_false_trigger_from_ascii` is never
invoked, and `_update_ascii_database` ignores the `false_trigger` flag. -/
def process_circular_from_json (csvRows : List CircRow) (table : List AsciiEvent)
    (p : PartialCirc) (now : String) : List CircRow × List AsciiEvent :=
  (update_csv_database csvRows p, update_ascii_database table p now)

theorem strContains_self (s : String) : strContains s s = true := by
  unfold strContains
  cases h : s.toList with
  | nil => rfl
  | cons c cs => simp [containsSeg, startsWithSeg_refl]

theorem track_facility_fields (ev : AsciiEvent) (p : PartialCirc) :
    (track_facility ev p).bestFacility = ev.bestFacility ∧
    (track_facility ev p).ra = ev.ra ∧ (track_facility ev p).dec = ev.dec ∧
    (track_facility ev p).error = ev.error ∧
    (track_facility ev p).facility = ev.facility ∧
    (track_facility ev p).gcnId = ev.gcnId := by
  unfold track_facility
  split <;> simp

theorem track_facility_contains (ev : AsciiEvent) (p : PartialCirc) :
    strContains (track_facility ev p).allFacilities p.facility = true := by
  unfold track_facility
  split
  · assumption
  · split
    · simp [strContains_self]
    · simpa using strContains_append_self (ev.allFacilities ++ ",") p.facility

theorem apply_position_update_spec {s : Bool} {ev1 ev3 : AsciiEvent} {p : PartialCirc}
    (h : apply_position_update s ev1 p = some ev3) :
    ev3.bestFacility = (if s then p.facility else ev1.bestFacility) ∧
    ev3.allFacilities = ev1.allFacilities ∧
    (s = false → ev3 = ev1) ∧
    (s = true → hasCoords p = true → ev3.ra = p.ra ∧ ev3.dec = p.dec) ∧
    (hasCoords p = false → ev3.ra = ev1.ra ∧ ev3.dec = ev1.dec ∧
      ev3.error = ev1.error ∧ ev3.facility = ev1.facility) := by
  cases s with
  | false =>
    simp only [apply_position_update, Bool.false_eq_true, if_false,
      Option.some.injEq] at h
    subst h
    simp
  | true =>
    rw [apply_position_update, if_pos rfl] at h
    by_cases hc : hasCoords p = true
    · rw [if_pos hc] at h
      cases herr : p.error with
      | none =>
        simp only [herr] at h
        by_cases hu : p.errorUnit = "arcsec" ∨ p.errorUnit = "arcmin"
        · rw [if_pos hu] at h
          exact absurd h (by simp)
        · rw [if_neg hu] at h
          simp only [Option.some.injEq] at h
          subst h
          simp [hc]
      | some e =>
        simp only [herr, Option.some.injEq] at h
        subst h
        simp [hc]
    · rw [if_neg hc] at h
      simp only [Option.some.injEq] at h
      subst h
      simp only [Bool.not_eq_true] at hc
      simp [hc]

theorem finalize_entry_fields (g : String) (ev3 : AsciiEvent) (p : PartialCirc)
    (now : String) :
    (finalize_entry g ev3 p now).bestFacility = ev3.bestFacility ∧
    (finalize_entry g ev3 p now).ra = ev3.ra ∧
    (finalize_entry g ev3 p now).dec = ev3.dec ∧
    (finalize_entry g ev3 p now).error = ev3.error ∧
    (finalize_entry g ev3 p now).facility = ev3.facility ∧
    (finalize_entry g ev3 p now).allFacilities = ev3.allFacilities := by
  unfold finalize_entry
  cases hr : p.redshift <;> by_cases hh : p.hostInfo = "" <;> simp [hr, hh]

theorem update_existing_entry_split {ev ev' : AsciiEvent} {p : PartialCirc}
    {now : String} (h : update_existing_entry ev p now = some ev') :
    ∃ ev3, apply_position_update (should_update_position ev.bestFacility p.facility)
        (track_facility ev p) p = some ev3 ∧
      ev' = finalize_entry ev.gcnId ev3 p now := by
  unfold update_existing_entry at h
  rcases Option.map_eq_some'.mp h with ⟨ev3, h3, hfin⟩
  exact ⟨ev3, h3, hfin.symm⟩

/-- C2 amended.  In a merge into an existing event, `Best_Facility` is
replaced exactly when the incoming facility's priority is strictly
greater than the current best facility's (the position itself also needs
incoming coordinates); on equal or lower priority nothing of the stored
position, error, facility or best facility changes — the error radius is
never consulted, so there is no tie-break by smaller error. -/
theorem merge_position_update_rule (ev : AsciiEvent) (p : PartialCirc) (now : String)
    (ev' : AsciiEvent) (h : update_existing_entry ev p now = some ev') :
    should_update_position ev.bestFacility p.facility =
      decide (get_facility_priority ev.bestFacility < get_facility_priority p.facility) ∧
    ev'.bestFacility =
      (if should_update_position ev.bestFacility p.facility then p.facility
       else ev.bestFacility) ∧
    (should_update_position ev.bestFacility p.facility = false →
      ev'.ra = ev.ra ∧ ev'.dec = ev.dec ∧ ev'.error = ev.error ∧
      ev'.facility = ev.facility) ∧
    (should_update_position ev.bestFacility p.facility = true →
      hasCoords p = true → ev'.ra = p.ra ∧ ev'.dec = p.dec) ∧
    (hasCoords p = false → ev'.ra = ev.ra ∧ ev'.dec = ev.dec ∧
      ev'.error = ev.error) := by
  obtain ⟨ev3, h3, hfin⟩ := update_existing_entry_split h
  obtain ⟨hb3, _, hid3, hpos3, hnc3⟩ := apply_position_update_spec h3
  obtain ⟨htb, htra, htdec, hterr, htfac, _⟩ := track_facility_fields ev p
  obtain ⟨hfb, hfra, hfdec, hferr, hffac, _⟩ :=
    finalize_entry_fields ev.gcnId ev3 p now
  subst hfin
  refine ⟨rfl, ?_, ?_, ?_, ?_⟩
  · rw [hfb, hb3, htb]
  · intro hs
    rw [hs] at hid3
    have h31 := hid3 rfl
    subst h31
    exact ⟨by rw [hfra, htra], by rw [hfdec, htdec], by rw [hferr, hterr],
      by rw [hffac, htfac]⟩
  · intro hs hc
    obtain ⟨hra, hdec⟩ := hpos3 hs hc
    exact ⟨by rw [hfra, hra], by rw [hfdec, hdec]⟩
  · intro hc
    obtain ⟨hra, hdec, herr, _⟩ := hnc3 hc
    exact ⟨by rw [hfra, hra, htra], by rw [hfdec, hdec, htdec],
      by rw [hferr, herr, hterr]⟩

/-- Counterexample to C2: the stored best facility `SwiftXRT` and the
incoming facility `Swift-XRT` have equal priority 10, and the incoming
error radius (1 degree) is strictly smaller than the stored one (2
degrees), so the claim demands a replacement — but the merge leaves best
facility, position and error unchanged (only facility tracking, the
`GCN_ID` list and `Last_Update` move). -/
theorem merge_position_update_counterexample :
    get_facility_priority "Swift-XRT" = get_facility_priority "SwiftXRT" ∧
    (1 : ℚ) < (2 : ℚ) ∧
    update_existing_entry
        ⟨"39000", "\"GRB 250322A\"", some 100, some 20, some 2, "SwiftXRT",
         "SwiftXRT", "SwiftXRT", "SwiftXRT", "100", "t0", none, ""⟩
        ⟨"39001", "GRB 250322A", "Swift-XRT", "100", some 101, some 21, some 1,
         "deg", none, "", false⟩ "t1" =
      some ⟨"39000,39001", "\"GRB 250322A\"", some 100, some 20, some 2, "SwiftXRT",
            "SwiftXRT", "SwiftXRT,Swift-XRT", "SwiftXRT", "100", "t1", none, ""⟩ := by
  refine ⟨by decide, by decide, ?_⟩
  decide

/-- Witness for C2's amended theorem: a Fermi GBM circular (priority 3)
merged into an event whose best facility is Swift XRT (priority 10)
leaves best facility and position untouched. -/
theorem merge_position_update_rule_witness :
    should_update_position "SwiftXRT" "FermiGBM" =
      decide (get_facility_priority "SwiftXRT" < get_facility_priority "FermiGBM") ∧
    (⟨"2,3", "\"GRB 250322A\"", some 100, some 20, some 2, "SwiftXRT", "SwiftXRT",
       "SwiftXRT,FermiGBM", "SwiftXRT", "100", "t1", none, ""⟩ : AsciiEvent).bestFacility =
      (if should_update_position "SwiftXRT" "FermiGBM" then "FermiGBM" else "SwiftXRT") ∧
    (should_update_position "SwiftXRT" "FermiGBM" = false →
      some (100:ℚ) = some 100 ∧ some (20:ℚ) = some 20 ∧ some (2:ℚ) = some 2 ∧
      "SwiftXRT" = "SwiftXRT") ∧
    (should_update_position "SwiftXRT" "FermiGBM" = true →
      hasCoords ⟨"3", "GRB 250322A", "FermiGBM", "101", some 99, some 19, some 3,
        "deg", none, "", false⟩ = true →
      some (100:ℚ) = some 99 ∧ some (20:ℚ) = some 19) ∧
    (hasCoords ⟨"3", "GRB 250322A", "FermiGBM", "101", some 99, some 19, some 3,
        "deg", none, "", false⟩ = false →
      some (100:ℚ) = some 100 ∧ some (20:ℚ) = some 20 ∧ some (2:ℚ) = some 2) :=
  merge_position_update_rule
    ⟨"2", "\"GRB 250322A\"", some 100, some 20, some 2, "SwiftXRT", "SwiftXRT",
     "SwiftXRT", "SwiftXRT", "100", "t0", none, ""⟩
    ⟨"3", "GRB 250322A", "FermiGBM", "101", some 99, some 19, some 3, "deg",
     none, "", false⟩ "t1"
    ⟨"2,3", "\"GRB 250322A\"", some 100, some 20, some 2, "SwiftXRT", "SwiftXRT",
     "SwiftXRT,FermiGBM", "SwiftXRT", "100", "t1", none, ""⟩
    (by decide)

/-- C8 amended.  After a merge into an existing event the incoming
facility occurs in `All_Facilities` as a *substring* (it is appended as a
new comma-separated element exactly when it is not already a substring of
the stored cell).  Because the containment test is Python's substring
`in`, the incoming facility need not end up as a comma-separated
*element* of the cell — see the counterexample. -/
theorem merge_records_facility (ev : AsciiEvent) (p : PartialCirc) (now : String)
    (ev' : AsciiEvent) (h : update_existing_entry ev p now = some ev') :
    strContains ev'.allFacilities p.facility = true ∧
    (strContains ev.allFacilities p.facility = false →
      ev'.allFacilities =
        (if ev.allFacilities = "" then p.facility
         else ev.allFacilities ++ "," ++ p.facility)) := by
  obtain ⟨ev3, h3, hfin⟩ := update_existing_entry_split h
  obtain ⟨_, hall3, _, _, _⟩ := apply_position_update_spec h3
  have hfall := (finalize_entry_fields ev.gcnId ev3 p now).2.2.2.2.2
  subst hfin
  constructor
  · rw [hfall, hall3]
    exact track_facility_contains ev p
  · intro hnc
    rw [hfall, hall3]
    unfold track_facility
    rw [if_neg (by simp [hnc])]

/-- Counterexample to C8: merging a circular from facility `Swift` into an
event whose `All_Facilities` cell is `SwiftXRT` leaves the cell unchanged
(`"Swift" in "SwiftXRT"` holds as a substring), so `Swift` is not a
member of the comma-separated facility set after the merge. -/
theorem merge_records_facility_counterexample :
    update_existing_entry
        ⟨"5", "\"GRB 250322A\"", some 100, some 20, some 2, "SwiftXRT", "SwiftXRT",
         "SwiftXRT", "SwiftXRT", "100", "t0", none, ""⟩
        ⟨"6", "GRB 250322A", "Swift", "100", some 100, some 20, some 1, "deg",
         none, "", false⟩ "t1" =
      some ⟨"5,6", "\"GRB 250322A\"", some 100, some 20, some 2, "SwiftXRT",
            "SwiftXRT", "SwiftXRT", "SwiftXRT", "100", "t1", none, ""⟩ ∧
    commaSplit "SwiftXRT" = ["SwiftXRT"] ∧
    "Swift" ∉ commaSplit "SwiftXRT" := by
  decide

/-- Witness for C8's amended theorem: a Fermi GBM circular merged into a
Swift-only event is appended to `All_Facilities` and is a substring of
the updated cell. -/
theorem merge_records_facility_witness :
    strContains
        (⟨"2,3", "\"GRB 250322A\"", some 100, some 20, some 2, "SwiftXRT",
          "SwiftXRT", "SwiftXRT,FermiGBM", "SwiftXRT", "100", "t1", none,
          ""⟩ : AsciiEvent).allFacilities "FermiGBM" = true ∧
    (strContains "SwiftXRT" "FermiGBM" = false →
      (⟨"2,3", "\"GRB 250322A\"", some 100, some 20, some 2, "SwiftXRT",
        "SwiftXRT", "SwiftXRT,FermiGBM", "SwiftXRT", "100", "t1", none,
        ""⟩ : AsciiEvent).allFacilities =
        (if ("SwiftXRT" : String) = "" then "FermiGBM"
         else "SwiftXRT" ++ "," ++ "FermiGBM")) :=
  merge_records_facility
    ⟨"2", "\"GRB 250322A\"", some 100, some 20, some 2, "SwiftXRT", "SwiftXRT",
     "SwiftXRT", "SwiftXRT", "100", "t0", none, ""⟩
    ⟨"3", "GRB 250322A", "FermiGBM", "101", some 99, some 19, some 3, "deg",
     none, "", false⟩ "t1"
    ⟨"2,3", "\"GRB 250322A\"", some 100, some 20, some 2, "SwiftXRT", "SwiftXRT",
     "SwiftXRT,FermiGBM", "SwiftXRT", "100", "t1", none, ""⟩
    (by decide)

/-- C3.  A false-trigger circular for an identity present in the Active
Window store does *not* remove it: `process_circular_from_json` routes
every circular — retraction or not — through `_update_ascii_database`,
which ignores the `false_trigger` flag and updates the row in place,
while `_remove_false_trigger_from_ascii` (which would delete the row, as
the last conjunct shows) is never called anywhere in the repository.  The
CSV database does keep both the original row and the appended
false-trigger row, as the claim says. -/
theorem false_trigger_not_evicted :
    process_circular_from_json
        [⟨"39000", "GRB 250322A", "FermiGBM", "761354667", false⟩]
        [⟨"39000", "\"GRB 250322A\"", some 100, some 20, some 2, "FermiGBM",
          "FermiGBM", "FermiGBM", "FermiGBM", "761354667", "t0", none, ""⟩]
        ⟨"39001", "GRB 250322A", "FermiGBM", "761354667", none, none, none, "",
         none, "", true⟩ "t1" =
      ([⟨"39000", "GRB 250322A", "FermiGBM", "761354667", false⟩,
        ⟨"39001", "GRB 250322A", "FermiGBM", "761354667", true⟩],
       [⟨"39000,39001", "\"GRB 250322A\"", some 100, some 20, some 2, "FermiGBM",
         "FermiGBM", "FermiGBM", "FermiGBM", "761354667", "t1", none, ""⟩]) ∧
    (update_ascii_database
        [⟨"39000", "\"GRB 250322A\"", some 100, some 20, some 2, "FermiGBM",
          "FermiGBM", "FermiGBM", "FermiGBM", "761354667", "t0", none, ""⟩]
        ⟨"39001", "GRB 250322A", "FermiGBM", "761354667", none, none, none, "",
         none, "", true⟩ "t1").findIdx?
      (fun r => stripQuotes r.name = "GRB 250322A") = some 0 ∧
    remove_false_trigger_from_ascii
        [⟨"39000", "\"GRB 250322A\"", some 100, some 20, some 2, "FermiGBM",
          "FermiGBM", "FermiGBM", "FermiGBM", "761354667", "t0", none, ""⟩]
        ⟨"39001", "GRB 250322A", "FermiGBM", "761354667", none, none, none, "",
         none, "", true⟩ = [] := by
  decide

/-- Counterexample to C5: the circular handler's ASCII update enforces no
capacity at all.  With a one-row store (at the example capacity 1) a
circular for a new event with coordinates and a trigger number appends a
second row. -/
theorem ascii_capacity_counterexample :
    (update_ascii_database
        [⟨"100", "\"GRB 250322A\"", some 10, some 10, some 1, "SwiftXRT",
          "SwiftXRT", "SwiftXRT", "SwiftXRT", "1", "t0", none, ""⟩]
        ⟨"101", "GRB 250323B", "FermiGBM", "2", some 30, some 40, some 3, "deg",
         none, "", false⟩ "t1").length = 2 ∧
    1 < (update_ascii_database
        [⟨"100", "\"GRB 250322A\"", some 10, some 10, some 1, "SwiftXRT",
          "SwiftXRT", "SwiftXRT", "SwiftXRT", "1", "t0", none, ""⟩]
        ⟨"101", "GRB 250323B", "FermiGBM", "2", some 30, some 40, some 3, "deg",
         none, "", false⟩ "t1").length := by
  decide

end CircularHandler

namespace Bot

/-- What the disconnected branch of `check_connection` decides to do on
one pass: either sleep a long cooldown and reset the attempt counter, or
sleep a backoff delay and try once, after which the counter becomes 0 on
success and one more on failure. -/
inductive ReconnectAction where
  | cooldown (waitSeconds : ℕ) (attemptsAfter : ℕ)
  | attempt (delay : ℚ) (attemptsAfterSuccess attemptsAfterFailure : ℕ)
deriving DecidableEq, Repr

/-- The reconnect logic of `check_connection` while disconnected (lines
2088-2115 of `gcn_bot.py`).  `jitter` is the sampled
`random.uniform(0, 1)` value.  At or beyond the configured maximum number
of consecutive failed attempts (`max_reconnect_attempts`, 5 in the
source) the watchdog sleeps 300 seconds and resets the counter to zero;
otherwise the delay is `min(2 ** attempts, 60) + jitter`. -/
def check_connection_step (reconnectAttempts maxReconnectAttempts : ℕ)
    (jitter : ℚ) : ReconnectAction :=
  if reconnectAttempts ≥ maxReconnectAttempts then .cooldown 300 0
  else .attempt (min ((2 : ℚ) ^ reconnectAttempts) 60 + jitter) 0
    (reconnectAttempts + 1)

/-- C9.  While disconnected: below the maximum attempt count the delay
before the next reconnection attempt is the exponential
`min(2 ** k, 60)` plus a jitter in `[0, 1)`, so it lies in
`[min(2 ** k, 60), min(2 ** k, 60) + 1)` and never exceeds 61 seconds;
once the maximum number of consecutive failures is reached the watchdog
instead waits the 300-second cooldown and resets the attempt counter to
zero. -/
theorem reconnect_backoff (k maxAttempts : ℕ) (jitter : ℚ)
    (h0 : 0 ≤ jitter) (h1 : jitter < 1) :
    (k < maxAttempts →
      check_connection_step k maxAttempts jitter =
        .attempt (min ((2 : ℚ) ^ k) 60 + jitter) 0 (k + 1) ∧
      min ((2 : ℚ) ^ k) 60 ≤ min ((2 : ℚ) ^ k) 60 + jitter ∧
      min ((2 : ℚ) ^ k) 60 + jitter < min ((2 : ℚ) ^ k) 60 + 1 ∧
      min ((2 : ℚ) ^ k) 60 + jitter < 61) ∧
    (maxAttempts ≤ k →
      check_connection_step k maxAttempts jitter = .cooldown 300 0) := by
  constructor
  · intro hk
    refine ⟨?_, by linarith, by linarith, ?_⟩
    · unfold check_connection_step
      rw [if_neg (by omega)]
    · have hmin : min ((2 : ℚ) ^ k) 60 ≤ 60 := min_le_right _ _
      linarith
  · intro hk
    unfold check_connection_step
    rw [if_pos hk]

/-- Witness for C9 at the source's configuration: a third consecutive
failure (k = 2) against the default maximum of 5 attempts with zero
jitter, and the cooldown decision at k = 5. -/
theorem reconnect_backoff_witness :
    ((2 : ℕ) < 5 →
      check_connection_step 2 5 0 =
        .attempt (min ((2 : ℚ) ^ 2) 60 + 0) 0 (2 + 1) ∧
      min ((2 : ℚ) ^ 2) 60 ≤ min ((2 : ℚ) ^ 2) 60 + 0 ∧
      min ((2 : ℚ) ^ 2) 60 + 0 < min ((2 : ℚ) ^ 2) 60 + 1 ∧
      min ((2 : ℚ) ^ 2) 60 + 0 < 61) ∧
    ((5 : ℕ) ≤ 2 → check_connection_step 2 5 0 = .cooldown 300 0) :=
  reconnect_backoff 2 5 0 (by decide) (by decide)

end Bot

end GcnBot
